import Mathlib

/-!
Verification development for the apophenia maximum-likelihood engine
(`apop_mle.c` and collaborators).  C doubles are modelled as rationals,
GSL vectors as `List ℚ`, and the `apop_data` pair (optional vector plus
optional matrix) as a structure of optional lists.  Transcendental
functions that the algorithms treat as black boxes (`exp`, `log`) are
passed in as explicit function parameters so that every definition stays
computable.
-/

namespace Apophenia

/-- The `apop_data` structure as used by the MLE core: an optional
fixed-length vector component and an optional two-dimensional matrix
component (rows as lists). -/
structure apop_data where
  vector : Option (List ℚ)
  matrix : Option (List (List ℚ))
deriving DecidableEq, Repr

/-- Modelled from the spec: `apop_data_pack` (declared in the repository's
headers, body not under `src/`) concatenates the fixed-length component, if
present, followed by the two-dimensional component in row-major order. -/
def apop_data_pack (d : apop_data) : List ℚ :=
  (d.vector.getD []) ++ (d.matrix.getD []).flatten

/-- Split a flat list into `r` rows of `c` entries each, row-major. -/
def chunkRows (c : ℕ) : ℕ → List ℚ → List (List ℚ)
  | 0, _ => []
  | r + 1, l => l.take c :: chunkRows c r (l.drop c)

/-- Modelled from the spec: `apop_data_unpack` (body not under `src/`) is
the exact inverse of `apop_data_pack` given the same shape descriptors
`(vsize, msize1, msize2)`; a zero size denotes an absent component, matching
the `p->vector ? p->vector->size : 0` convention used throughout
`apop_mle.c`. -/
def apop_data_unpack (flat : List ℚ) (vsize msize1 msize2 : ℕ) : apop_data where
  vector := if vsize = 0 then none else some (flat.take vsize)
  matrix := if msize1 = 0 ∨ msize2 = 0 then none else
    some (chunkRows msize2 msize1 (flat.drop vsize))

/-- Shape consistency of an `apop_data` value with the shape descriptors
`(vsize, msize1, msize2)`: an absent component has size zero, a present
vector has positive length `vsize`, and a present matrix has `msize1 > 0`
rows each of positive length `msize2` (GSL vectors and matrices always have
positive dimensions). -/
def consistentb (p : apop_data) (vsize msize1 msize2 : ℕ) : Bool :=
  (match p.vector with
   | none => vsize == 0
   | some v => v.length == vsize && vsize != 0) &&
  (match p.matrix with
   | none => msize1 == 0 || msize2 == 0
   | some rows =>
       rows.length == msize1 && msize1 != 0 && msize2 != 0 &&
         rows.all (fun r => r.length == msize2))

/-- A concrete shape-consistent structured parameter value, used to
instantiate the codec roundtrip. -/
def packExample : apop_data :=
  ⟨some [5], some [[1, 2], [3, 4]]⟩

/-- The capability set of an `apop_model` as consumed by the MLE core:
optional log-likelihood, optional plain density `p`, optional analytic
score, and an optional constraint returning a penalty together with a
corrected (projected) parameter set. -/
structure apop_model where
  log_likelihood : Option (apop_data → apop_data → ℚ)
  p : Option (apop_data → apop_data → ℚ)
  score : Option (apop_data → apop_data → List ℚ)
  constraint : Option (apop_data → ℚ × apop_data)

/-- The `infostruct` aggregate threaded through every optimizer callback:
the model, the dataset, the cached parameter-shape descriptors, the
`use_constraint` switch, whether trace logging is enabled
(`strlen(apop_opts.mle_trace_path) > 0` in the source), and the
user-tunable step size and tolerance from `apop_mle_params`. -/
structure infostruct where
  model : apop_model
  data : apop_data
  vsize : ℕ
  msize1 : ℕ
  msize2 : ℕ
  use_constraint : Bool
  trace_enabled : Bool
  step_size : ℚ
  tolerance : ℚ

/-- Objective-function selection in `negshell` and its callers:
`model->log_likelihood ? model->log_likelihood : model->p`. -/
def pick_f (m : apop_model) : Option (apop_data → apop_data → ℚ) :=
  match m.log_likelihood with
  | some f => some f
  | none => m.p

/-- The row appended to the trace table by `insert_path_into_db`: for a
one-dimensional parameter vector the columns are `(beta0, ll)`, otherwise
`(beta0, beta1, ll)` — only the first two coordinates, whatever the
dimension. -/
def insert_path_into_db (beta : List ℚ) (out : ℚ) : List ℚ :=
  if beta.length = 1 then [beta.getD 0 0, out]
  else [beta.getD 0 0, beta.getD 1 0, out]

/-- Result of one `negshell` evaluation: the scalar to minimize and the
trace rows appended during the call. -/
structure NegRes where
  value : ℚ
  rows : List (List ℚ)
deriving DecidableEq, Repr

/-- The objective adapter `negshell`: unpack the flat vector, pick the
likelihood (or density), apply the constraint when `use_constraint` is set
(penalty strictly positive: `-f(corrected) + penalty`; penalty zero:
`-f(original)`; the source leaves `out = 0` for a negative penalty), and
append one trace row when tracing is enabled.  The `apop_error(0, 's', ...)`
call for a model with neither capability halts the program; that fatal exit
is modelled as the `.error` branch. -/
def negshell (i : infostruct) (betain : List ℚ) : Except Unit NegRes :=
  let beta := apop_data_unpack betain i.vsize i.msize1 i.msize2
  match pick_f i.model with
  | none => .error ()
  | some f =>
      let pc : ℚ × apop_data :=
        if i.use_constraint then
          match i.model.constraint with
          | some c => c beta
          | none => (0, beta)
        else (0, beta)
      let out0 : ℚ := if 0 < pc.1 then -(f pc.2 i.data) + pc.1 else 0
      let out : ℚ := if pc.1 = 0 then -(f beta i.data) else out0
      .ok ⟨out, if i.trace_enabled then [insert_path_into_db betain (-out)] else []⟩

/-- The objective value produced by `negshell`, or `none` on the fatal
missing-capability path. -/
def negshell_value (i : infostruct) (betain : List ℚ) : Option ℚ :=
  match negshell i betain with
  | .ok r => some r.value
  | .error _ => none

/-- The estimate record returned by a driver: final structured parameters,
the (unnegated) model likelihood there, and a numeric status. -/
structure Estimate where
  parameters : apop_data
  log_likelihood : ℚ
  status : ℤ
deriving DecidableEq, Repr

/-- The derivative-free driver `apop_maximum_likelihood_no_d`.  Modelled
from the spec where it leans on GSL: the simplex internals of
`gsl_multimin_fminimizer` are abstracted as an arbitrary iteration function
applied `maxIter` times, but — as in the source, where
`gsl_multimin_fminimizer_set` evaluates `negshell` at the starting point
before the iteration loop — the objective adapter runs once during setup,
so its fatal missing-capability exit aborts the solve before any iteration
and no `Estimate` is produced. -/
def apop_maximum_likelihood_no_d (i : infostruct) (start : List ℚ)
    (iterate : List ℚ → List ℚ) (maxIter : ℕ) : Except Unit Estimate :=
  match negshell i start with
  | .error e => .error e
  | .ok _ =>
      let x := iterate^[maxIter] start
      let params := apop_data_unpack x i.vsize i.msize1 i.msize2
      let ll : ℚ := match pick_f i.model with
        | some f => f params i.data
        | none => 0
      .ok ⟨params, ll, 0⟩

/-- A sample likelihood used by concrete instantiations: the sum of the
vector component of the parameters. -/
def exLik (prm : apop_data) (_ : apop_data) : ℚ := (prm.vector.getD []).sum

/-- A sample likelihood that is identically zero. -/
def exZeroLik (_ : apop_data) (_ : apop_data) : ℚ := 0

/-- A sample constraint with a strictly positive penalty and a fixed
corrected point. -/
def exCon (_ : apop_data) : ℚ × apop_data := (1, ⟨some [0], none⟩)

/-- A sample constraint with penalty 5, used to show the annealing energy
ignores the penalty. -/
def exCon5 (_ : apop_data) : ℚ × apop_data := (5, ⟨some [99], none⟩)

/-- Concrete `infostruct` with a binding constraint, for the objective
adapter. -/
def exInfo4 : infostruct :=
  ⟨⟨some exLik, none, none, some exCon⟩, ⟨none, none⟩, 1, 0, 0, true, false, 1, 1⟩

/-- Concrete `infostruct` with tracing enabled and a three-dimensional
parameter vector. -/
def exInfo6 : infostruct :=
  ⟨⟨some exZeroLik, none, none, none⟩, ⟨none, none⟩, 3, 0, 0, false, true, 1, 1⟩

/-- Concrete `infostruct` whose model exposes neither a log-likelihood nor
a density. -/
def exInfo8 : infostruct :=
  ⟨⟨none, none, none, none⟩, ⟨none, none⟩, 1, 0, 0, true, false, 1, 1⟩

/-- Concrete `infostruct` with a constraint of penalty 5, for the
annealing-energy claim. -/
def exInfo10 : infostruct :=
  ⟨⟨some exLik, none, none, some exCon5⟩, ⟨none, none⟩, 2, 0, 0, true, false, 1, 1⟩

/-- The MLE method parameters that the restart controller copies and
modifies: starting point, tolerance, step size and method selector. -/
structure apop_mle_params where
  starting_pt : Option (List ℚ)
  tolerance : ℚ
  step_size : ℚ
  method : ℤ
deriving DecidableEq, Repr

/-- An `apop_params` record as seen by the restart controller: the
estimated parameter vector, its log-likelihood, and the attached MLE
method parameters. -/
structure apop_params where
  parameters : List ℚ
  log_likelihood : ℚ
  mle : apop_mle_params
deriving DecidableEq, Repr

/-- Modelled from the spec: `apop_vector_bounded` (declared in the
linear-algebra header under `src/unnamed/part_000`, body not under `src/`)
reports whether every component of the vector is bounded in absolute value
by the given sanity threshold. -/
def apop_vector_bounded (v : List ℚ) (mx : ℚ) : Bool :=
  v.all fun x => decide (|x| ≤ mx)

/-- The configuration built by `apop_estimate_restart` for the re-launched
solve: start from the prior parameters when they pass the hard-coded 1e4
bound, otherwise from the prior starting point; scale tolerance and step
size by `scale` (an `int` in the source); replace the method. -/
def restart_config (e : apop_params) (new_method scale : ℤ) : apop_mle_params :=
  ⟨if apop_vector_bounded e.parameters 10000 then some e.parameters
     else e.mle.starting_pt,
   e.mle.tolerance * (scale : ℚ),
   e.mle.step_size * (scale : ℚ),
   new_method⟩

/-- The restart controller `apop_estimate_restart`: run the model's
estimation once more under the modified configuration and return the new
estimate exactly when its parameters pass the 1e4 bound and its
log-likelihood strictly exceeds the original's; otherwise return the
original.  The re-launched solve (`e->model->estimate`) is a caller-supplied
capability, taken here as the function argument `estimate`. -/
def apop_estimate_restart (e : apop_params) (new_method scale : ℤ)
    (estimate : apop_mle_params → apop_params) : apop_params :=
  let copy := estimate (restart_config e new_method scale)
  if apop_vector_bounded copy.parameters 10000 = true ∧
      e.log_likelihood < copy.log_likelihood then copy else e

/-- A concrete prior estimate for the restart controller. -/
def exRestartE : apop_params := ⟨[1], 10, ⟨none, 1, 1, 0⟩⟩

/-- A concrete estimation capability producing a bounded estimate with a
higher log-likelihood. -/
def exRestartFn (mp : apop_mle_params) : apop_params := ⟨[2], 20, mp⟩

/-- Modelled from the spec: GSL's one-dimensional `gsl_deriv_central`
(library code, not in this repository) as described in 4.3 — a symmetric
central difference around the current coordinate with no higher-order
correction. -/
def gsl_deriv_central (F : ℚ → ℚ) (x h : ℚ) : ℚ :=
  (F (x + h) - F (x - h)) / (2 * h)

/-- The multidimensional numerical gradient
`apop_internal_numerical_gradient`: perturb one coordinate of the flat
vector at a time (`one_d` unpacks the perturbed vector and evaluates the
objective) and differentiate with the hard-coded step 1e-5, which no
configuration field reaches. -/
def apop_internal_numerical_gradient (f : apop_data → apop_data → ℚ)
    (i : infostruct) (beta : List ℚ) : List ℚ :=
  (List.range beta.length).map fun j =>
    gsl_deriv_central
      (fun b => f (apop_data_unpack (beta.set j b) i.vsize i.msize1 i.msize2) i.data)
      (beta.getD j 0) (1 / 100000)

/-- The derivative provider `dnegshell`: when the constraint binds
(nonzero penalty) both the packed and unpacked evaluation points are
replaced by the corrected ones; the analytic score is used when present,
otherwise the numerical gradient of the likelihood (or density); the sign
is flipped at the end for the minimizers.  A model with neither likelihood
nor density would dereference a null pointer in the source; that is the
`none` branch. -/
def dnegshell (i : infostruct) (betain : List ℚ) : Option (List ℚ) :=
  let beta := apop_data_unpack betain i.vsize i.msize1 i.msize2
  let um : List ℚ × apop_data :=
    match i.model.constraint with
    | some c =>
        let pc := c beta
        if pc.1 ≠ 0 then (apop_data_pack pc.2, pc.2) else (betain, beta)
    | none => (betain, beta)
  let g : Option (List ℚ) :=
    match i.model.score with
    | some sc => some (sc um.2 i.data)
    | none =>
        match pick_f i.model with
        | some f => some (apop_internal_numerical_gradient f i um.1)
        | none => none
  g.map (List.map fun x => -x)

/-- A sample analytic score: the vector component of the parameters. -/
def exScore (prm : apop_data) (_ : apop_data) : List ℚ := prm.vector.getD []

/-- Concrete `infostruct` with both an analytic score and a binding
constraint, for the derivative provider. -/
def exInfo7 : infostruct :=
  ⟨⟨some exLik, none, some exScore, some exCon⟩, ⟨none, none⟩, 1, 0, 0, true, false, 1, 1⟩

/-- One draw from the random stream; GSL's generator never fails, so an
exhausted model stream yields 0. -/
def drawOne (rng : List ℚ) : ℚ × List ℚ :=
  match rng with
  | [] => (0, [])
  | d :: ds => (d, ds)

/-- The first dimension not yet used, the fallback for the modelled
rejection loop below. -/
def firstUnused (used : List Bool) : ℕ :=
  (used.findIdx? fun b => !b).getD 0

/-- The rejection loop `do { dim = gsl_rng_uniform(r) * size; } while
(dims_used[dim])` of `annealing_step`: draw, truncate to an integer
dimension index, retry while that dimension was already perturbed.  The
source loop terminates with probability one; it is modelled with the
finite draw stream as fuel, falling back to the first unused dimension if
the stream is exhausted. -/
def pickUnused (n : ℕ) (used : List Bool) : List ℚ → ℕ × List ℚ
  | [] => (firstUnused used, [])
  | d :: ds =>
      let dim := (⌊d * (n : ℚ)⌋).toNat
      if used.getD dim true then pickUnused n used ds else (dim, ds)

/-- The `while (dims_left)` loop of `annealing_step`: pick an unused
dimension, draw a sign (`uniform > 0.5 ? 1 : -1`) and a magnitude fraction
`amt`, increment that coordinate by `amt * step_left * sign`, and update
the budget by `step_left *= amt` — exactly as the source does. -/
def step_go (n : ℕ) : ℕ → List Bool → ℚ → List ℚ → List ℚ → List ℚ × List ℚ
  | 0, _, _, beta, rng => (beta, rng)
  | dl + 1, used, step_left, beta, rng =>
      let pr := pickUnused n used rng
      let used1 := used.set pr.1 true
      let sd := drawOne pr.2
      let sign : ℚ := if 1 / 2 < sd.1 then 1 else -1
      let ad := drawOne sd.2
      let beta1 := beta.set pr.1 (beta.getD pr.1 0 + ad.1 * step_left * sign)
      step_go n dl used1 (ad.1 * step_left) beta1 ad.2

/-- The annealing proposal step `annealing_step`: perturb every dimension
exactly once through `step_go`, then project the proposal through the
model's constraint when it reports a nonzero penalty. -/
def annealing_step (i : infostruct) (step_size : ℚ) (beta rng : List ℚ) :
    List ℚ × List ℚ :=
  let n := beta.length
  let br := step_go n n (List.replicate n false) step_size beta rng
  let testme := apop_data_unpack br.1 i.vsize i.msize1 i.msize2
  match i.model.constraint with
  | some c =>
      let pc := c testme
      if pc.1 ≠ 0 then (apop_data_pack pc.2, br.2) else br
  | none => br

/-- The Manhattan metric `apop_vector_grid_distance` used as the annealing
distance (`annealing_distance` in the source). -/
def apop_vector_grid_distance (a b : List ℚ) : ℚ :=
  (List.zipWith (fun x y => |x - y|) a b).sum

/-- Concrete unconstrained two-dimensional `infostruct` for the annealing
proposal step. -/
def exInfo2 : infostruct :=
  ⟨⟨some exZeroLik, none, none, none⟩, ⟨none, none⟩, 2, 0, 0, true, false, 1, 1⟩

/-- A concrete draw stream: dimension 0, sign +, magnitude 9/10, then
dimension 1, sign +, magnitude 9/10. -/
def exDraws2 : List ℚ := [0, 6/10, 9/10, 1/2, 6/10, 9/10]

/-- The annealing schedule parameters handed to `gsl_siman_solve`. -/
structure gsl_siman_params where
  n_tries : ℕ
  iters_fixed_T : ℕ
  step_size : ℚ
  k : ℚ
  t_initial : ℚ
  mu_t : ℚ
  t_min : ℚ
deriving DecidableEq, Repr

/-- State of the annealing walk: current flat parameter vector and the
remaining random stream. -/
structure SimanState where
  beta : List ℚ
  rng : List ℚ
deriving DecidableEq, Repr

/-- The annealing energy function (`annealing_energy` in the source):
`negshell` on the current state.  The fatal missing-capability branch
cannot fire when the model has a likelihood; its value is defaulted.  The
covariance-recording side path (`an_record`) feeds the trajectory modelled
separately below. -/
def annealing_energy (i : infostruct) (b : List ℚ) : ℚ :=
  (negshell_value i b).getD 0

/-- Modelled from the spec: a single inner iteration of `gsl_siman_solve`
(GSL library code, not in this repository) — propose via `annealing_step`,
accept if the energy does not increase, otherwise accept with the
Boltzmann probability `exp(-(Enew - Ecur) / (k T))` against one uniform
draw.  The exponential is passed in abstractly as `e`. -/
def siman_iter (e : ℚ → ℚ) (i : infostruct) (sp : gsl_siman_params)
    (T : ℚ) (st : SimanState) : SimanState :=
  let pr := annealing_step i sp.step_size st.beta st.rng
  let ecur := annealing_energy i st.beta
  let enew := annealing_energy i pr.1
  if enew ≤ ecur then ⟨pr.1, pr.2⟩
  else
    let ud := drawOne pr.2
    if ud.1 < e (-(enew - ecur) / (sp.k * T)) then ⟨pr.1, ud.2⟩ else ⟨st.beta, ud.2⟩

/-- Modelled from the spec: the cooling loop of `gsl_siman_solve` —
`iters_fixed_T` inner iterations per temperature level, then geometric
decay `T / mu_t` until the minimum temperature, with an explicit fuel
bound on the number of temperature levels. -/
def siman_loop (e : ℚ → ℚ) (i : infostruct) (sp : gsl_siman_params) :
    ℕ → ℚ → SimanState → SimanState
  | 0, _, st => st
  | fuel + 1, T, st =>
      if T < sp.t_min then st
      else siman_loop e i sp fuel (T / sp.mu_t)
        ((siman_iter e i sp T)^[sp.iters_fixed_T] st)

/-- The annealing driver `apop_annealing`: disable constraint checking in
the objective adapter (the constraint acts only inside `annealing_step`),
default the starting point to the all-ones vector, run the cooling loop on
the supplied random stream, then unpack the final state and evaluate the
model's likelihood there (`log(p)` through the abstract `logq` when only a
density is present). -/
def apop_annealing (e logq : ℚ → ℚ) (i0 : infostruct) (sp : gsl_siman_params)
    (starting_pt : Option (List ℚ)) (paramct : ℕ) (rng : List ℚ)
    (coolFuel : ℕ) : Estimate :=
  let i : infostruct := { i0 with use_constraint := false }
  let beta0 := starting_pt.getD (List.replicate paramct 1)
  let fin := siman_loop e i sp coolFuel sp.t_initial ⟨beta0, rng⟩
  let params := apop_data_unpack fin.beta i.vsize i.msize1 i.msize2
  let ll : ℚ :=
    match i0.model.log_likelihood with
    | some f => f params i0.data
    | none =>
        match i0.model.p with
        | some f => logq (f params i0.data)
        | none => 0
  ⟨params, ll, 0⟩

/-- The source's default annealing schedule. -/
def exSiman : gsl_siman_params := ⟨200, 200, 1, 1, 50, 1002/1000, 1/2⟩

/-- The IEEE-754 binary64 value of a double all eight of whose bytes are
0x01 — the content each `proportion[j]` receives from
`memset(proportion, 1, sizeof(double) * gpsize)` in
`produce_covariance_matrix`: sign 0, exponent field 16, mantissa field
283686952306177, hence 2^(16 - 1023) * (1 + 283686952306177 / 2^52) =
4787286579676673 / 2^1059, about 7.75e-304 — not 1.0. -/
def memset_one_double : ℚ := 4787286579676673 / 2 ^ 1059

/-- The trajectory recorder `record_gradient_info`: append the gradient to
the flat score list and `-f` (log-likelihood models) or `-log f` (density
models) to the objective list.  Every rational is finite, so the
`gsl_finite` guard never fires in this model. -/
def record_gradient_info (has_ll : Bool) (logq : ℚ → ℚ) (f : ℚ)
    (g : List ℚ) (traj : List (List ℚ) × List ℚ) :
    List (List ℚ) × List ℚ :=
  (traj.1 ++ [g], traj.2 ++ [if has_ll then -f else -(logq f)])

/-- The per-entry weights actually computed by `produce_covariance_matrix`:
each accumulator starts at the memset byte-pattern value and receives
`exp(lp_k - lp_j)` for every other entry `k` (the exponential passed
abstractly as `e`). -/
def produce_proportions (e : ℚ → ℚ) (lps : List ℚ) : List ℚ :=
  (List.range lps.length).map fun j =>
    memset_one_double +
      (((List.range lps.length).filter fun k => k ≠ j).map fun k =>
        e (lps.getD k 0 - lps.getD j 0)).sum

/-- The per-entry weights that the claim (and the source's own comment
`1/(1+exp()+exp()...`) describe: identical to `produce_proportions` except
that each accumulator starts at 1. -/
def claimed_proportions (e : ℚ → ℚ) (lps : List ℚ) : List ℚ :=
  (List.range lps.length).map fun j =>
    1 +
      (((List.range lps.length).filter fun k => k ≠ j).map fun k =>
        e (lps.getD k 0 - lps.getD j 0)).sum

/-- The preconditioning matrix accumulated by `produce_covariance_matrix`
before inversion: entry `(j,k)` sums `score_m[k] * score_m[j] /
proportion[m]` over the trajectory, scaled by the dataset's row count when
a data matrix is present. -/
def produce_preinv (e : ℚ → ℚ) (scores : List (List ℚ)) (lps : List ℚ)
    (betasize : ℕ) (nrows : Option ℕ) : List (List ℚ) :=
  let props := produce_proportions e lps
  let base := (List.range betasize).map fun j =>
    (List.range betasize).map fun k =>
      ((List.range lps.length).map fun m =>
        (scores.getD m []).getD k 0 * (scores.getD m []).getD j 0 /
          props.getD m 0).sum
  match nrows with
  | some n => base.map fun row => row.map fun x => x * (n : ℚ)
  | none => base

end Apophenia

namespace Apophenia

theorem chunkRows_join (c : ℕ) (rows : List (List ℚ))
    (h : ∀ r ∈ rows, r.length = c) :
    chunkRows c rows.length rows.flatten = rows := by
  induction rows with
  | nil => rfl
  | cons r rs ih =>
      have hr : r.length = c := h r (List.mem_cons_self r rs)
      have hrest : ∀ q ∈ rs, q.length = c := fun q hq => h q (List.mem_cons_of_mem r hq)
      simp only [List.length_cons, List.flatten_cons, chunkRows, List.cons.injEq]
      constructor
      · rw [← hr, List.take_left]
      · rw [show (r ++ rs.flatten).drop c = rs.flatten from by
            rw [← hr, List.drop_left], ih hrest]

/-- C5: for every shape descriptor and every shape-consistent structured
parameter value `p`, unpacking the flat vector produced by packing `p`
yields exactly `p` (the codec roundtrip is the identity). -/
theorem apop_unpack_pack (p : apop_data) (vsize msize1 msize2 : ℕ)
    (h : consistentb p vsize msize1 msize2 = true) :
    apop_data_unpack (apop_data_pack p) vsize msize1 msize2 = p := by
  obtain ⟨vec, mat⟩ := p
  simp only [consistentb, Bool.and_eq_true] at h
  obtain ⟨hv, hm⟩ := h
  cases vec with
  | none =>
      cases mat with
      | none =>
          simp only [Bool.or_eq_true, beq_iff_eq] at hv hm
          simp [apop_data_unpack, apop_data_pack, hv, hm]
      | some rows =>
          simp only [beq_iff_eq] at hv
          simp only [Bool.and_eq_true, beq_iff_eq, bne_iff_ne, ne_eq,
            List.all_eq_true, decide_eq_true_eq] at hm
          obtain ⟨⟨⟨hlen, h1⟩, h2⟩, hall⟩ := hm
          simp only [apop_data_unpack, apop_data_pack, hv, Option.getD_some,
            Option.getD_none, List.nil_append, apop_data.mk.injEq]
          constructor
          · simp
          · rw [if_neg (by simp [h1, h2]), List.drop_zero, ← hlen,
              chunkRows_join msize2 rows hall]
  | some v =>
      simp only [Bool.and_eq_true, beq_iff_eq, bne_iff_ne, ne_eq] at hv
      obtain ⟨hvlen, hv0⟩ := hv
      cases mat with
      | none =>
          simp only [Bool.or_eq_true, beq_iff_eq] at hm
          simp only [apop_data_unpack, apop_data_pack, Option.getD_some,
            Option.getD_none, List.flatten_nil, List.append_nil, apop_data.mk.injEq]
          constructor
          · rw [if_neg hv0, ← hvlen, List.take_length]
          · rw [if_pos (by rcases hm with h | h <;> simp [h])]
      | some rows =>
          simp only [Bool.and_eq_true, beq_iff_eq, bne_iff_ne, ne_eq,
            List.all_eq_true, decide_eq_true_eq] at hm
          obtain ⟨⟨⟨hlen, h1⟩, h2⟩, hall⟩ := hm
          simp only [apop_data_unpack, apop_data_pack, Option.getD_some,
            apop_data.mk.injEq]
          constructor
          · rw [if_neg hv0, ← hvlen, List.take_left]
          · rw [if_neg (by simp [h1, h2]), ← hvlen, List.drop_left, ← hlen,
              chunkRows_join msize2 rows hall]

/-- Witness for C5: the roundtrip identity evaluated at a concrete
shape-consistent value with both components present. -/
theorem apop_unpack_pack_witness :
    consistentb packExample 1 2 2 = true ∧
      apop_data_unpack (apop_data_pack packExample) 1 2 2 = packExample :=
  ⟨by decide, apop_unpack_pack packExample 1 2 2 (by decide)⟩

/-- C4: with a declared constraint and constraint-checking enabled, a
strictly positive penalty makes the objective adapter return
`-likelihood(corrected) + penalty`, evaluating the likelihood at the
constraint-corrected parameters; a zero penalty makes it return the
negated likelihood at the original parameters. -/
theorem negshell_constraint_penalty (i : infostruct)
    (c : apop_data → ℚ × apop_data) (f : apop_data → apop_data → ℚ)
    (betain : List ℚ)
    (hu : i.use_constraint = true) (hc : i.model.constraint = some c)
    (hll : i.model.log_likelihood = some f) :
    (0 < (c (apop_data_unpack betain i.vsize i.msize1 i.msize2)).1 →
        negshell_value i betain =
          some (-(f (c (apop_data_unpack betain i.vsize i.msize1 i.msize2)).2 i.data) +
            (c (apop_data_unpack betain i.vsize i.msize1 i.msize2)).1)) ∧
    ((c (apop_data_unpack betain i.vsize i.msize1 i.msize2)).1 = 0 →
        negshell_value i betain =
          some (-(f (apop_data_unpack betain i.vsize i.msize1 i.msize2) i.data))) := by
  have hp : pick_f i.model = some f := by simp [pick_f, hll]
  constructor
  · intro hpen
    simp only [negshell_value, negshell, hp, hu, hc, if_true]
    rw [if_neg (ne_of_gt hpen), if_pos hpen]
  · intro hpen
    simp only [negshell_value, negshell, hp, hu, hc, if_true]
    rw [if_pos hpen]

/-- Witness for C4: the penalty branch of the objective adapter evaluated
at a concrete constrained model. -/
theorem negshell_constraint_penalty_witness :
    negshell_value exInfo4 [7] = some 1 := by
  have h := (negshell_constraint_penalty exInfo4 exCon exLik [7] rfl rfl rfl).1
    (by norm_num [exCon])
  rw [h]; norm_num [exCon, exLik]

/-- Counterexample for C6: with a three-dimensional parameter vector the
appended trace row keeps only the first two coordinates — the row is
`(beta0, beta1, objective)`, not all three coordinates followed by the
objective as the claim states. -/
theorem insert_path_drops_coordinates :
    negshell exInfo6 [1, 2, 3] = .ok ⟨0, [[1, 2, 0]]⟩ ∧
      ([[1, 2, 0]] : List (List ℚ)) ≠ [[1, 2, 3, 0]] := by
  constructor
  · rfl
  · decide

theorem insert_path_into_db_eq_take (beta : List ℚ) (out : ℚ)
    (h : beta ≠ []) :
    insert_path_into_db beta out = beta.take 2 ++ [out] := by
  match beta, h with
  | [a], _ => simp [insert_path_into_db]
  | a :: b :: t, _ => simp [insert_path_into_db]

/-- C6 as amended: while tracing is enabled, each objective evaluation
appends exactly one row to the trace sink, and that row consists of the
first `min n 2` coordinates of the evaluated flat parameter vector (all of
them when `n ≤ 2`) followed by one objective-value column. -/
theorem negshell_trace_one_row (i : infostruct) (betain : List ℚ)
    (f : apop_data → apop_data → ℚ)
    (hll : i.model.log_likelihood = some f) (ht : i.trace_enabled = true)
    (hn : betain ≠ []) :
    ∃ v : NegRes, negshell i betain = .ok v ∧
      v.rows = [betain.take 2 ++ [-v.value]] := by
  have hp : pick_f i.model = some f := by simp [pick_f, hll]
  simp only [negshell, hp, ht, if_true]
  exact ⟨_, rfl, by rw [insert_path_into_db_eq_take betain _ hn]⟩

/-- Witness for C6 as amended: the single appended row at a concrete
three-dimensional evaluation. -/
theorem negshell_trace_one_row_witness :
    exInfo6.trace_enabled = true ∧ ([1, 2, 3] : List ℚ) ≠ [] ∧
      ∃ v : NegRes, negshell exInfo6 [1, 2, 3] = .ok v ∧
        v.rows = [([1, 2, 3] : List ℚ).take 2 ++ [-v.value]] :=
  ⟨rfl, by decide, negshell_trace_one_row exInfo6 [1, 2, 3] exZeroLik rfl rfl (by decide)⟩

/-- C8: when the model exposes neither a log-likelihood nor a density, the
solve aborts with a fatal configuration error during setup — for every
starting point, every iteration behaviour, and every iteration budget the
result is the error, so no iteration influences the outcome and no partial
`Estimate` is produced. -/
theorem mle_missing_capability_fatal (i : infostruct)
    (h1 : i.model.log_likelihood = none) (h2 : i.model.p = none) :
    ∀ (start : List ℚ) (iterate : List ℚ → List ℚ) (maxIter : ℕ),
      apop_maximum_likelihood_no_d i start iterate maxIter = .error () := by
  intro start iterate maxIter
  have hp : pick_f i.model = none := by simp [pick_f, h1, h2]
  simp [apop_maximum_likelihood_no_d, negshell, hp]

/-- Witness for C8: the missing-capability abort at a concrete model. -/
theorem mle_missing_capability_fatal_witness :
    apop_maximum_likelihood_no_d exInfo8 [0] id 5 = .error () :=
  mle_missing_capability_fatal exInfo8 rfl rfl [0] id 5

/-- C10: with constraint checking disabled — exactly the `use_constraint = 0`
setting the annealing driver installs before iterating — the objective
adapter never adds a constraint penalty: the energy of every evaluated
state equals the plain negated likelihood, whatever constraint the model
declares. -/
theorem annealing_energy_unconstrained (i : infostruct)
    (f : apop_data → apop_data → ℚ) (betain : List ℚ)
    (hll : i.model.log_likelihood = some f) :
    negshell_value { i with use_constraint := false } betain =
      some (-(f (apop_data_unpack betain i.vsize i.msize1 i.msize2) i.data)) := by
  have hp : pick_f i.model = some f := by simp [pick_f, hll]
  simp [negshell_value, negshell, hp]

/-- Witness for C10: a model with a penalty-5 constraint still yields the
plain negated likelihood as its annealing energy. -/
theorem annealing_energy_unconstrained_witness :
    negshell_value { exInfo10 with use_constraint := false } [2, 3] = some (-5) := by
  rw [annealing_energy_unconstrained exInfo10 exLik [2, 3] rfl]
  norm_num [exLik, apop_data_unpack, exInfo10]

/-- C3: the restart controller returns either the freshly computed
estimate — and then only when its parameters pass the 1e4 bound and its
log-likelihood strictly exceeds the original's — or the original estimate
unchanged; in particular, for an original with bounded parameters and
scale factor 1, whenever the returned estimate is bounded its
log-likelihood is at least the original's. -/
theorem apop_estimate_restart_spec (e : apop_params) (new_method scale : ℤ)
    (estimate : apop_mle_params → apop_params) :
    ((apop_estimate_restart e new_method scale estimate =
        estimate (restart_config e new_method scale) ∧
      apop_vector_bounded
        (apop_estimate_restart e new_method scale estimate).parameters 10000 = true ∧
      e.log_likelihood <
        (apop_estimate_restart e new_method scale estimate).log_likelihood) ∨
     apop_estimate_restart e new_method scale estimate = e) ∧
    (apop_vector_bounded e.parameters 10000 = true → scale = 1 →
      apop_vector_bounded
        (apop_estimate_restart e new_method scale estimate).parameters 10000 = true →
      e.log_likelihood ≤
        (apop_estimate_restart e new_method scale estimate).log_likelihood) := by
  simp only [apop_estimate_restart]
  split_ifs with h
  · exact ⟨Or.inl ⟨rfl, h.1, h.2⟩, fun _ _ _ => le_of_lt h.2⟩
  · exact ⟨Or.inr rfl, fun _ _ _ => le_refl _⟩

/-- Witness for C3: the second part of the restart guarantee at a concrete
bounded original estimate and scale 1. -/
theorem apop_estimate_restart_spec_witness :
    exRestartE.log_likelihood ≤
      (apop_estimate_restart exRestartE 0 1 exRestartFn).log_likelihood :=
  (apop_estimate_restart_spec exRestartE 0 1 exRestartFn).2 (by decide) rfl
    (by norm_num [apop_estimate_restart, restart_config, exRestartE, exRestartFn,
          apop_vector_bounded])

/-- C7: the derivative provider invokes an analytic score on the
constraint-corrected parameters whenever the constraint yields a nonzero
penalty; with no analytic score it computes a per-dimension central
difference of the likelihood at the fixed step 1e-5, which is not taken
from the configuration. -/
theorem dnegshell_spec (i : infostruct) (sc : apop_data → apop_data → List ℚ)
    (c : apop_data → ℚ × apop_data) (f : apop_data → apop_data → ℚ)
    (betain : List ℚ) :
    (i.model.score = some sc → i.model.constraint = some c →
      (c (apop_data_unpack betain i.vsize i.msize1 i.msize2)).1 ≠ 0 →
      dnegshell i betain =
        some ((sc (c (apop_data_unpack betain i.vsize i.msize1 i.msize2)).2 i.data).map
          fun x => -x)) ∧
    (i.model.score = none → i.model.constraint = none →
      i.model.log_likelihood = some f →
      dnegshell i betain =
        some ((List.range betain.length).map fun j =>
          -((f (apop_data_unpack (betain.set j (betain.getD j 0 + 1 / 100000))
                  i.vsize i.msize1 i.msize2) i.data -
             f (apop_data_unpack (betain.set j (betain.getD j 0 - 1 / 100000))
                  i.vsize i.msize1 i.msize2) i.data) /
            (2 * (1 / 100000))))) := by
  constructor
  · intro hsc hc hpen
    simp only [dnegshell, hc, hsc, if_pos hpen, Option.map_some']
  · intro hsc hc hll
    have hp : pick_f i.model = some f := by simp [pick_f, hll]
    simp only [dnegshell, hc, hsc, hp, Option.map_some',
      apop_internal_numerical_gradient, gsl_deriv_central, List.map_map]
    rfl

/-- Witness for C7: the analytic score evaluated on the corrected point of
a binding constraint, at a concrete model. -/
theorem dnegshell_spec_witness :
    dnegshell exInfo7 [7] = some [0] := by
  rw [(dnegshell_spec exInfo7 exScore exCon exLik [7]).1 rfl rfl
    (by norm_num [exCon])]
  norm_num [exScore, exCon]

/-- C2 fails on the code: with two dimensions, step size 1 and magnitude
draws of 9/10 for both dimensions, the proposal moves the parameter vector
by 9/10 + 81/100 = 171/100 > 1 in the Manhattan metric, because the source
updates the budget by `step_left *= amt` after incrementing by
`amt * step_left` — contradicting its own comment that the move is at most
`step_size` in the 1-norm (each dimension is still perturbed exactly
once). -/
theorem annealing_step_exceeds_step_size :
    (annealing_step exInfo2 1 [0, 0] exDraws2).1 = [9/10, 81/100] ∧
      apop_vector_grid_distance [0, 0] [9/10, 81/100] = 171/100 ∧
      (1 : ℚ) < 171/100 := by
  refine ⟨?_, ?_, by norm_num⟩
  · norm_num [annealing_step, step_go, pickUnused, drawOne, firstUnused,
      exInfo2, exDraws2, List.replicate, List.getD_cons_zero,
      List.getD_cons_succ, Int.floor_zero, Int.floor_one, Int.toNat_zero,
      Int.toNat_one]
  · norm_num [apop_vector_grid_distance, abs_of_nonneg]

/-- C9: the annealing driver is a deterministic function of the supplied
random stream — two runs from the same seeded source in the same state
return identical final parameters and identical status. -/
theorem apop_annealing_deterministic (e logq : ℚ → ℚ) (i : infostruct)
    (sp : gsl_siman_params) (starting_pt : Option (List ℚ)) (paramct : ℕ)
    (coolFuel : ℕ) (rng1 rng2 : List ℚ) (h : rng1 = rng2) :
    apop_annealing e logq i sp starting_pt paramct rng1 coolFuel =
      apop_annealing e logq i sp starting_pt paramct rng2 coolFuel := by
  rw [h]

/-- Witness for C9: two identical concrete runs of the annealing driver. -/
theorem apop_annealing_deterministic_witness :
    apop_annealing id id exInfo2 exSiman none 2 [1/2, 1/3] 1 =
      apop_annealing id id exInfo2 exSiman none 2 [1/2, 1/3] 1 :=
  apop_annealing_deterministic id id exInfo2 exSiman none 2 1 [1/2, 1/3]
    [1/2, 1/3] rfl

/-- C1 fails on the code: `memset(proportion, 1, ...)` fills each weight
accumulator with the byte pattern 0x0101010101010101, whose double value
is 4787286579676673 / 2^1059 ≈ 7.75e-304, not 1.  For a single-entry
trajectory (score vector `[1]`, recorded objective 0, no data matrix) the
code's weight denominator is that tiny value instead of the claimed
`1 + Σ exp(...) = 1`, so the preconditioning matrix is `[[1/7.75e-304]]`
instead of `[[1]]`. -/
theorem produce_covariance_memset_weight :
    record_gradient_info true id 0 [1] ([], []) = ([[1]], [0]) ∧
      produce_proportions id [0] = [memset_one_double] ∧
      claimed_proportions id [0] = [1] ∧
      memset_one_double ≠ 1 ∧
      produce_preinv id [[1]] [0] 1 none = [[1 / memset_one_double]] ∧
      (1 : ℚ) / memset_one_double ≠ 1 := by
  refine ⟨by norm_num [record_gradient_info], ?_, ?_, ?_, ?_, ?_⟩
  · norm_num [produce_proportions, show List.range 1 = [0] from rfl]
  · norm_num [claimed_proportions, show List.range 1 = [0] from rfl]
  · norm_num [memset_one_double]
  · norm_num [produce_preinv, produce_proportions,
      show List.range 1 = [0] from rfl, List.getElem?_cons_zero,
      Option.getD_some, List.getD]
  · norm_num [memset_one_double]

end Apophenia
